import Mathlib

namespace Boards

open scoped List

/-!
# Verification of the boards-app recommendation core

A shallow embedding of the recommendation scoring engine of the boards-app
backend (`src/backend/server.js` and the embeddings module bundled with
`src/backend/validation.js`), together with proofs settling the frozen claims
about it.

Conventions used throughout:

* JavaScript numbers are modelled as real numbers (`ℝ`); accumulators whose
  source arithmetic is exact decimal arithmetic are computed in `ℚ` and cast
  into `ℝ` so that concrete instances can be decided.
* Timestamps (`Date` values) are modelled as integer milliseconds since the
  epoch (`ℤ`), the value of `Date.prototype.getTime`.
* `null`/`undefined`-able values are modelled with `Option`.
* Vectors are `List ℝ`, matching the JavaScript arrays used by the code.
-/

/-! ## Vector primitives (embeddings module and server.js)

`sumSq v` is the value of `v.reduce((sum, value) => sum + value * value, 0)`,
the sub-expression under `Math.sqrt` in both `normalizeVector` and
`cosineSimilarity`.
-/

/-- Sum of squares of a vector's entries. -/
def sumSq (v : List ℝ) : ℝ := (v.map fun x => x * x).sum

/-- Dot product via `a.reduce((sum, value, index) => sum + value * b[index], 0)`;
for lists of equal length this is the zip-wise product sum. -/
def dotList (a b : List ℝ) : ℝ := (List.zipWith (· * ·) a b).sum

/-- Value of `Math.sqrt(v.reduce((sum, value) => sum + value * value, 0))`:
the Euclidean magnitude computed by `normalizeVector`. -/
noncomputable def magnitude (v : List ℝ) : ℝ := Real.sqrt (sumSq v)

open Classical in
/-- Model of `normalizeVector` from the embeddings module: if the magnitude is zero the
vector is returned unchanged, otherwise every entry is divided by the
magnitude. -/
noncomputable def normalizeVector (v : List ℝ) : List ℝ :=
  if magnitude v = 0 then v else v.map fun x => x / magnitude v

open Classical in
/-- Model of `cosineSimilarity` from server.js (the variant used by the feed route):
returns 0 when either input is empty or the lengths differ, or when either
norm is zero; otherwise the dot product divided by the product of norms. -/
noncomputable def cosineSimilarity (a b : List ℝ) : ℝ :=
  if a.length = 0 ∨ b.length = 0 ∨ a.length ≠ b.length then 0
  else if Real.sqrt (sumSq a) = 0 ∨ Real.sqrt (sumSq b) = 0 then 0
  else dotList a b / (Real.sqrt (sumSq a) * Real.sqrt (sumSq b))

/-! ## Event Embedder (embeddings module: `generateEventEmbedding`)

The accumulator arithmetic is exact decimal arithmetic in the source, so it is
carried out in `ℚ` and cast into `ℝ` only for the final `normalizeVector`.
Weight tables are per-dimension association lists `(dimension, weight)`,
mirroring the `{ dim: weight }` objects of the source; all dimensions are
below 8, so `List.set` has the same effect as the JavaScript index
assignment.  Timestamps are interpreted at UTC (`getHours` is local-time in
JavaScript; no claim depends on the timezone offset) and `String.toLowerCase`
is modelled by ASCII lowercasing (all keyword patterns are ASCII). -/

/-- The event fields read by `generateEventEmbedding`.  `title`/`description`
default to the empty string in the source (`event.title || ''`), `startTime`
is epoch milliseconds or absent, and absent/null optional fields are `none`. -/
structure EmbedEvent where
  title : String
  description : String
  vibe : List String
  eventType : String
  startTime : Option Int
  capacity : Option Int
  ageRestriction : Option String

/-- The `VIBE_WEIGHTS` lookup table: known vibe tags map to partial weight
vectors; unknown tags contribute nothing (`none`). -/
def VIBE_WEIGHTS : String → Option (List (Nat × ℚ))
  | "Wild" => some [(0, 1.0), (5, 0.7)]
  | "Loud" => some [(0, 0.9), (5, 0.6)]
  | "Chill" => some [(0, -0.8), (7, 0.4)]
  | "Intimate" => some [(0, -0.6), (2, -0.7)]
  | "Creative" => some [(1, 0.9)]
  | "Artsy" => some [(1, 0.8), (7, 0.3)]
  | "Community" => some [(2, 0.8)]
  | "Foodie" => some [(3, 1.0)]
  | "Professional" => some [(6, 0.9)]
  | "Zen" => some [(7, 0.9), (0, -0.5)]
  | _ => none

/-- The `EVENT_TYPE_WEIGHTS` lookup table; unknown types fall back to
`EVENT_TYPE_WEIGHTS.other`, which is empty. -/
def EVENT_TYPE_WEIGHTS : String → List (Nat × ℚ)
  | "party" => [(0, 0.9), (5, 0.9), (2, 0.5)]
  | "dance" => [(0, 0.8), (5, 0.7), (4, 0.6)]
  | "concert" => [(0, 0.7), (1, 0.6), (5, 0.6), (2, 0.4)]
  | "festival" => [(0, 0.6), (2, 0.9), (1, 0.5)]
  | "art" => [(1, 0.9), (0, -0.3)]
  | "theatre" => [(1, 0.8), (0, -0.2)]
  | "music" => [(1, 0.7), (0, 0.3)]
  | "workshop" => [(1, 0.6), (6, 0.4)]
  | "food" => [(3, 0.9), (2, 0.3)]
  | "market" => [(3, 0.5), (2, 0.6), (1, 0.4)]
  | "sports" => [(4, 0.9), (0, 0.4)]
  | "networking" => [(6, 0.9), (0, -0.4)]
  | "talk" => [(6, 0.7), (1, 0.3)]
  | "meetup" => [(6, 0.5), (2, 0.5)]
  | "wellness" => [(7, 0.9), (0, -0.6)]
  | "community" => [(2, 0.8), (0, 0.1)]
  | _ => []

/-- Model of `vector[dim] += weight` on an 8-slot accumulator. -/
def bumpAdd (v : List ℚ) (dw : Nat × ℚ) : List ℚ :=
  v.set dw.1 (v.getD dw.1 0 + dw.2)

/-- Apply every `(dim, weight)` entry of a weight object to the accumulator. -/
def applyWeights (v : List ℚ) (ws : List (Nat × ℚ)) : List ℚ :=
  ws.foldl bumpAdd v

/-- Apply a weight object scaled by a constant factor
(`vector[dim] += weight * 1.2` for event types). -/
def applyWeightsScaled (v : List ℚ) (ws : List (Nat × ℚ)) (s : ℚ) : List ℚ :=
  ws.foldl (fun acc dw => bumpAdd acc (dw.1, dw.2 * s)) v

/-! ### Keyword pattern matching

Every regex in `KEYWORD_PATTERNS` has the shape `\b(alt|alt|...)\b/i` where
each alternative is a literal word, except `after.?dark` and `sound.?bath`
which contain one optional-any-character gap.  An alternative is therefore a
nonempty list of word segments separated by `.?` gaps.  `\b` is the standard
word boundary on `[A-Za-z0-9_]`, and `.` does not match a newline. -/

/-- JavaScript regex word character class `\w`. -/
def isWordChar (c : Char) : Bool :=
  (c ≥ 'a' && c ≤ 'z') || (c ≥ 'A' && c ≤ 'Z') || (c ≥ '0' && c ≤ '9') || c = '_'

/-- The literal word `w` occurs in `text` starting at index `i`. -/
def strAt (text : List Char) (i : Nat) (w : List Char) : Bool :=
  decide ((text.drop i).take w.length = w)

/-- Word-boundary test between index `i - 1` and `i` relative to a word
character at `i` (start) or at `i - 1` (end): the adjacent outside character
must not be a word character. -/
def boundaryBefore (text : List Char) (i : Nat) : Bool :=
  decide (i = 0) || !isWordChar (text.getD (i - 1) ' ')

def boundaryAfter (text : List Char) (i : Nat) : Bool :=
  decide (i ≥ text.length) || !isWordChar (text.getD i ' ')

/-- Match the remaining segments of an alternative starting at index `i`,
with a `.?` gap (0 or 1 non-newline characters) before each segment after the
first, and the closing `\b` after the last segment. -/
def matchTailAt (text : List Char) (i : Nat) : List (List Char) → Bool
  | [] => boundaryAfter text i
  | w :: rest =>
    strAt text i w &&
      (matchTailAt text (i + w.length) rest ||
        (!rest.isEmpty &&
          (match text.getD (i + w.length) '\n' with
            | c => decide (i + w.length < text.length) && decide (c ≠ '\n')) &&
          matchTailAt text (i + w.length + 1) rest))

/-- A whole alternative (with its leading `\b`) matches at index `i`. -/
def matchAltAt (text : List Char) (i : Nat) (segs : List (List Char)) : Bool :=
  boundaryBefore text i && matchTailAt text i segs

/-- Model of `pattern.test(text)`: some alternative matches at some position. -/
def patternTest (text : List Char) (alts : List (List String)) : Bool :=
  (List.range (text.length + 1)).any fun i =>
    alts.any fun segs => matchAltAt text i (segs.map String.toList)

/-- ASCII model of `String.prototype.toLowerCase` (all patterns are ASCII). -/
def jsLower (s : String) : List Char :=
  s.toList.map Char.toLower

/-- The `KEYWORD_PATTERNS` table, flattened over `Object.values` in source order:
each entry is the list of regex alternatives paired with its weight object. -/
def KEYWORD_PATTERNS : List (List (List String) × List (Nat × ℚ)) :=
  [ ([["rave"], ["rager"], ["wild"], ["crazy"], ["insane"], ["lit"]], [(0, 0.3), (5, 0.3)]),
    ([["chill"], ["relax"], ["calm"], ["peaceful"], ["quiet"]], [(0, -0.3), (7, 0.2)]),
    ([["intense"], ["hardcore"], ["aggressive"]], [(0, 0.4), (4, 0.2)]),
    ([["art"], ["artistic"], ["creative"], ["gallery"], ["exhibition"]], [(1, 0.3)]),
    ([["paint"], ["drawing"], ["sculpture"], ["installation"]], [(1, 0.4)]),
    ([["music"], ["musical"], ["band"], ["dj"], ["live"]], [(1, 0.2), (0, 0.2)]),
    ([["intimate"], ["small"], ["exclusive"], ["limited"]], [(2, -0.3)]),
    ([["community"], ["everyone"], ["open"], ["public"]], [(2, 0.3)]),
    ([["massive"], ["huge"], ["big"], ["large"]], [(2, 0.4)]),
    ([["food"], ["eat"], ["dining"], ["restaurant"], ["cuisine"]], [(3, 0.3)]),
    ([["wine"], ["beer"], ["cocktail"], ["drinks"]], [(3, 0.2), (5, 0.2)]),
    ([["chef"], ["cooking"], ["tasting"], ["culinary"]], [(3, 0.4)]),
    ([["sport"], ["athletic"], ["fitness"], ["exercise"], ["workout"]], [(4, 0.4)]),
    ([["run"], ["bike"], ["hike"], ["climb"], ["skate"]], [(4, 0.3)]),
    ([["night"], ["midnight"], ["late"], ["after", "dark"]], [(5, 0.3)]),
    ([["club"], ["clubbing"], ["dancing"], ["nightclub"]], [(5, 0.4), (0, 0.3)]),
    ([["network"], ["business"], ["career"], ["professional"]], [(6, 0.3)]),
    ([["startup"], ["entrepreneur"], ["tech"], ["innovation"]], [(6, 0.4)]),
    ([["conference"], ["seminar"], ["presentation"], ["talk"]], [(6, 0.3)]),
    ([["wellness"], ["meditation"], ["yoga"], ["mindful"]], [(7, 0.4)]),
    ([["healing"], ["therapy"], ["spiritual"], ["zen"]], [(7, 0.3)]),
    ([["sound", "bath"], ["breathwork"], ["holistic"]], [(7, 0.5)]) ]

/-- Model of `new Date(t).getHours()` at UTC: hour of day in `0..23`. -/
def jsHours (t : Int) : Int :=
  (t % 86400000) / 3600000

/-- Step 1 of `generateEventEmbedding`: add the weight vector of every known
vibe tag (`event.vibe.forEach`). -/
def vibeStage (v : List ℚ) (tags : List String) : List ℚ :=
  tags.foldl
    (fun v tag =>
      match VIBE_WEIGHTS tag with
      | some ws => applyWeights v ws
      | none => v) v

/-- Step 3 of `generateEventEmbedding`: every matching keyword pattern adds
its weight object. -/
def keywordStage (v : List ℚ) (text : List Char) : List ℚ :=
  KEYWORD_PATTERNS.foldl
    (fun v pw => if patternTest text pw.1 then applyWeights v pw.2 else v) v

/-- Step 4: evening/night hours (18-23 and 0-2) add 0.4 to nightlife, early
morning hours (6-9) add 0.3 to wellness; skipped when `startTime` is absent. -/
def timeStage (v : List ℚ) (startTime : Option Int) : List ℚ :=
  match startTime with
  | none => v
  | some t =>
    let hour := jsHours t
    let va := if hour ≥ 18 ∨ hour ≤ 2 then bumpAdd v (5, 0.4) else v
    if hour ≥ 6 ∧ hour ≤ 9 then bumpAdd va (7, 0.3) else va

/-- Step 5: small capacity subtracts from, large capacity adds to, the social
scale; `if (event.capacity)` makes a stored capacity of 0 falsy, hence
skipped. -/
def capacityStage (v : List ℚ) (capacity : Option Int) : List ℚ :=
  match capacity with
  | none => v
  | some c =>
    if c = 0 then v
    else if c ≤ 30 then bumpAdd v (2, -0.3)
    else if c ≥ 200 then bumpAdd v (2, 0.4)
    else v

/-- Step 6: age-restriction signal. -/
def ageStage (v : List ℚ) (ageRestriction : Option String) : List ℚ :=
  match ageRestriction with
  | none => v
  | some a =>
    if a = "19+" ∨ a = "21+" then bumpAdd (bumpAdd v (5, 0.3)) (0, 0.2)
    else if a = "All ages" then bumpAdd v (2, 0.2)
    else v

/-- The raw 8-slot accumulator built by `generateEventEmbedding` before the
final normalization: vibe tags, event type (scaled by 1.2), keyword patterns
over lowercased title + description, time-of-day, capacity and
age-restriction signals, in source order. -/
def rawEventVector (e : EmbedEvent) : List ℚ :=
  ageStage
    (capacityStage
      (timeStage
        (keywordStage
          (applyWeightsScaled (vibeStage (List.replicate 8 0) e.vibe)
            (EVENT_TYPE_WEIGHTS e.eventType) 1.2)
          (jsLower (e.title ++ " " ++ e.description)))
        e.startTime)
      e.capacity)
    e.ageRestriction

/-- Model of `generateEventEmbedding`: the raw accumulator, L2-normalized. -/
noncomputable def generateEventEmbedding (e : EmbedEvent) : List ℝ :=
  normalizeVector ((rawEventVector e).map Rat.cast)

/-- True when at least one vibe-tag, event-type, keyword, time, capacity or
age-restriction signal adds a weight in `generateEventEmbedding`. -/
def signalPresent (e : EmbedEvent) : Bool :=
  e.vibe.any (fun tag => (VIBE_WEIGHTS tag).isSome) ||
  !(EVENT_TYPE_WEIGHTS e.eventType).isEmpty ||
  KEYWORD_PATTERNS.any
    (fun pw => patternTest (jsLower (e.title ++ " " ++ e.description)) pw.1) ||
  (match e.startTime with
    | none => false
    | some t =>
      let hour := jsHours t
      decide (hour ≥ 18 ∨ hour ≤ 2) || decide (hour ≥ 6 ∧ hour ≤ 9)) ||
  (match e.capacity with
    | none => false
    | some c => !decide (c = 0) && (decide (c ≤ 30) || decide (c ≥ 200))) ||
  (match e.ageRestriction with
    | none => false
    | some a => decide (a = "19+" ∨ a = "21+") || decide (a = "All ages"))

/-! ## server.js utilities: geo distance and temporal bucketing -/

open Classical in
/-- Model of `Math.atan2(y, x)` for real arguments (signed zeros ignored; the feed only
calls it with nonnegative arguments). -/
noncomputable def jsAtan2 (y x : ℝ) : ℝ :=
  if 0 < x then Real.arctan (y / x)
  else if x < 0 then
    if 0 ≤ y then Real.arctan (y / x) + Real.pi else Real.arctan (y / x) - Real.pi
  else if 0 < y then Real.pi / 2
  else if y < 0 then -(Real.pi / 2)
  else 0

/-- Model of `calculateDistance` from server.js: haversine great-circle distance in km
with Earth radius 6371, or `null` when any coordinate is missing. -/
noncomputable def calculateDistance (lat1 lon1 lat2 lon2 : Option ℝ) : Option ℝ :=
  match lat1, lon1, lat2, lon2 with
  | some lat1, some lon1, some lat2, some lon2 =>
    let dLat := (lat2 - lat1) * Real.pi / 180
    let dLon := (lon2 - lon1) * Real.pi / 180
    let a := Real.sin (dLat / 2) * Real.sin (dLat / 2) +
      Real.cos (lat1 * Real.pi / 180) * Real.cos (lat2 * Real.pi / 180) *
        Real.sin (dLon / 2) * Real.sin (dLon / 2)
    let c := 2 * jsAtan2 (Real.sqrt a) (Real.sqrt (1 - a))
    some (6371 * c)
  | _, _, _, _ => none

/-- The ambient local-time facts `bucketByWhen` reads from `new Date()`:
the current instant, the start of the current calendar day, and the current
day of week (`getDay()`: 0 = Sunday .. 6 = Saturday).  Passing them explicitly
keeps the function pure; day arithmetic is modelled as exact 24-hour
multiples (DST shifts are not modelled, no claim depends on them). -/
structure Clock where
  nowMs : Int
  dayStartMs : Int
  dayOfWeek : Nat

/-- Model of `bucketByWhen(eventDate, when)` from server.js: `null` without a filter;
`now` whenever the start is at most two hours in the future (no lower
bound in the source); `tonight` between 17:00:00.000 and 23:59:59.999 of the
current day; `weekend` between the coming Saturday 00:00:00.000 and Sunday
23:59:59.999; otherwise `later`. -/
def bucketByWhen (clock : Clock) (eventDate : Int) (whenFilter : Option String) :
    Option String :=
  match whenFilter with
  | none => none
  | some w =>
    if w = "now" ∧ eventDate ≤ clock.nowMs + 2 * 60 * 60 * 1000 then some "now"
    else if w = "tonight" ∧ clock.dayStartMs + 17 * 60 * 60 * 1000 ≤ eventDate ∧
        eventDate ≤ clock.dayStartMs + 24 * 60 * 60 * 1000 - 1 then some "tonight"
    else
      let saturday := clock.dayStartMs +
        (((6 + 7 - clock.dayOfWeek) % 7 : Nat) : Int) * 86400000
      if w = "weekend" ∧ saturday ≤ eventDate ∧
          eventDate ≤ saturday + 86400000 + 86399999 then some "weekend"
      else some "later"

/-! ## server.js : the recommendation feed (`POST /api/reco/feed`) -/

/-- The six scoring weights (`weights` in server.js), environment-tunable with
the defaults below. -/
structure Weights where
  vibe : ℝ
  distance : ℝ
  time : ℝ
  popularity : ℝ
  trust : ℝ
  embed : ℝ

/-- The default weight values (`W_VIBE` .. `W_EMBED` unset). -/
noncomputable def defaultWeights : Weights :=
  { vibe := 2, distance := 1.5, time := 1.2, popularity := 1, trust := 0.5, embed := 1 }

/-- A candidate event as retrieved for the feed, with its included host trust,
embedding vector and RSVP count.  `Option` fields model `null`/missing
values reached through `?.` in the source. -/
structure FeedEvent where
  latitude : Option ℝ
  longitude : Option ℝ
  startTime : Int
  vibe : List String
  popularityScore : Option ℝ
  trustScore : Option ℝ
  hostTrustScore : Option ℝ
  embedding : Option (List ℝ)
  rsvpCount : Nat

/-- The request body fields read by the feed route (after the `userId` and
location presence check). -/
structure FeedRequest where
  lat : ℝ
  lng : ℝ
  radiusKm : ℝ
  whenFilter : Option String
  vibes : List String
  maxResults : Int

/-- The requesting user's fields read by the feed route. -/
structure FeedUser where
  vibePrefs : List String
  tasteVector : Option (List ℝ)

/-- An interaction row as loaded for the feed fallback vector (the route
queries interactions of the user with action in `going`/`cosign`). -/
structure FeedInteraction where
  action : String
  embedding : Option (List ℝ)

/-- A scored candidate: the event together with `distanceKm`, `score` and
`reasons` as attached by the route. -/
structure ScoredEvent where
  event : FeedEvent
  distanceKm : Option ℝ
  score : ℝ
  reasons : List String

open Classical in
/-- JavaScript `a || b` on a possibly-null number: take `a` unless it is
missing or `0` (falsy). -/
noncomputable def jsOrReal (x : Option ℝ) (y : ℝ) : ℝ :=
  match x with
  | none => y
  | some v => if v = 0 then y else v

/-- Model of `Number(total.toFixed(3))`: rounding to three decimal places (modelled as
exact half-up rounding of the real value). -/
noncomputable def jsToFixed3 (x : ℝ) : ℝ :=
  (round (x * 1000) : ℤ) / 1000

/-- The `sums[index] += value` accumulation over a vector, as in the fallback
user-vector loop; faithful whenever `v` is at most as long as `acc` (the
route only folds vectors of one shared dimension). -/
def jsAccumAdd (acc v : List ℝ) : List ℝ :=
  List.zipWith (· + ·) acc v ++ acc.drop v.length

/-- The embedding vectors used for the fallback user vector: interactions of
the `going`/`cosign` query whose event has a non-empty embedding vector
(`.map(i => i.event.embedding?.vector).filter(v => Array.isArray(v) && v.length)`). -/
def feedVectors (interactions : List FeedInteraction) : List (List ℝ) :=
  ((interactions.filter fun i =>
      i.action == "going" || i.action == "cosign").filterMap
    fun i => i.embedding).filter fun v => !v.isEmpty

/-- The user vector used for scoring (server.js lines 957-972): the stored
taste vector when non-empty, else the plain component-wise average of the
embeddings of the user's `going`/`cosign` interactions, else `[]`. -/
noncomputable def feedUserVector (user : FeedUser) (interactions : List FeedInteraction) :
    List ℝ :=
  let userVector := match user.tasteVector with
    | some tv => tv
    | none => []
  let filtered := interactions.filter fun i =>
    i.action == "going" || i.action == "cosign"
  if userVector.length ≠ 0 then userVector
  else if filtered.length = 0 then userVector
  else
    let vectors := feedVectors interactions
    if vectors.length = 0 then userVector
    else
      let dimension := vectors.headI.length
      let sums := vectors.foldl jsAccumAdd (List.replicate dimension 0)
      sums.map fun x => x / (vectors.length : ℝ)

/-- The `vibeOverlap` count: how many of the event's vibe tags (with multiplicity) are
in the union of the user's vibe preferences and the request vibes. -/
def countVibeOverlap (eventVibe searchVibes : List String) : Nat :=
  eventVibe.countP fun tag => searchVibes.contains tag

open Classical in
/-- The `distanceScore` component (server.js lines 992-993):
`weights.distance * Math.max(0, 1 - distanceKm / Math.max(radiusKm, 1))` for
a known distance, else 0. -/
noncomputable def distanceScoreOf (w : Weights) (distanceKm : Option ℝ) (radiusKm : ℝ) : ℝ :=
  match distanceKm with
  | some d => w.distance * max 0 (1 - d / max radiusKm 1)
  | none => 0

/-- The `timeScore` component: full weight for `now`, 0.75x for `tonight`,
0.6x for `weekend`, 0.4x otherwise. -/
noncomputable def timeScoreOf (w : Weights) (timeBucket : Option String) : ℝ :=
  if timeBucket = some "now" then w.time
  else if timeBucket = some "tonight" then w.time * 0.75
  else if timeBucket = some "weekend" then w.time * 0.6
  else w.time * 0.4

open Classical in
/-- Model of `buildReasons` from server.js. -/
noncomputable def buildReasons (vibeOverlap : Nat) (distanceKm : Option ℝ)
    (radiusKm : ℝ) (timeBucket : Option String) (hostTrust popularity cosine : ℝ) :
    List String :=
  (if vibeOverlap ≥ 2 then ["Matches multiple of your vibes"]
    else if vibeOverlap = 1 then ["Matches one of your vibes"] else []) ++
  (match distanceKm with
    | some d =>
      if d ≤ max (radiusKm * 0.4) 1 then ["Very close to you"]
      else if d ≤ radiusKm then ["Near your location"]
      else []
    | none => []) ++
  (if timeBucket = some "now" then ["Happening right now"]
    else if timeBucket = some "tonight" then ["Hitting tonight"]
    else if timeBucket = some "weekend" then ["Weekend highlight"] else []) ++
  (if hostTrust ≥ 0.7 then ["Trusted host"] else []) ++
  (if popularity ≥ 2 then ["Trending with the community"] else []) ++
  (if cosine ≥ 0.6 then ["Feels like your taste"] else [])

/-- The body of the per-candidate `.map` callback after the radius filter has
passed: compute all six components, the rounded total, and the reasons. -/
noncomputable def scoreEventBody (w : Weights) (req : FeedRequest) (clock : Clock)
    (searchVibes : List String) (userVector : List ℝ) (distanceKm : Option ℝ)
    (e : FeedEvent) : ScoredEvent :=
  let vibeOverlap := countVibeOverlap e.vibe searchVibes
  let vibeScore := (vibeOverlap : ℝ) * w.vibe
  let distanceScore := distanceScoreOf w distanceKm req.radiusKm
  let timeBucket := bucketByWhen clock e.startTime req.whenFilter
  let timeScore := timeScoreOf w timeBucket
  let popularityScore := jsOrReal e.popularityScore 0 + (e.rsvpCount : ℝ) * 0.1
  let trustScore := jsOrReal e.hostTrustScore (jsOrReal e.trustScore 0.5)
  let cosine := cosineSimilarity userVector (e.embedding.getD [])
  let embedScore := cosine * w.embed
  let total := vibeScore + distanceScore + timeScore +
    popularityScore * w.popularity + trustScore * w.trust + embedScore
  { event := e
    distanceKm := distanceKm
    score := jsToFixed3 total
    reasons := buildReasons vibeOverlap distanceKm req.radiusKm timeBucket
      trustScore popularityScore cosine }

open Classical in
/-- The per-candidate `.map` callback (server.js lines 980-1032): `none` when
the distance is known and exceeds the radius (the entry is dropped by
`.filter(Boolean)`), otherwise the scored candidate. -/
noncomputable def scoreEvent (w : Weights) (req : FeedRequest) (clock : Clock)
    (searchVibes : List String) (userVector : List ℝ) (e : FeedEvent) :
    Option ScoredEvent :=
  let distanceKm := calculateDistance (some req.lat) (some req.lng) e.latitude e.longitude
  match distanceKm with
  | some d =>
    if d > req.radiusKm then none
    else some (scoreEventBody w req clock searchVibes userVector (some d) e)
  | none => some (scoreEventBody w req clock searchVibes userVector none e)

/-- Model of `Array.prototype.slice(0, endIdx)`: a negative end index is relative to
the end of the array. -/
def jsSlice {α : Type} (l : List α) (endIdx : Int) : List α :=
  l.take (if endIdx < 0 then (max ((l.length : Int) + endIdx) 0).toNat
    else (min endIdx (l.length : Int)).toNat)

open Classical in
/-- Model of `.sort((a, b) => b.score - a.score).slice(0, Math.min(max, 50))`
(server.js lines 1033-1035).  `Array.prototype.sort` is a stable sort
ordering by the comparator, modelled by `List.mergeSort` with the
descending-by-score relation. -/
noncomputable def rankAndLimit (maxResults : Int) (scored : List ScoredEvent) :
    List ScoredEvent :=
  jsSlice (scored.mergeSort fun a b => decide (b.score ≤ a.score)) (min maxResults 50)

/-- The full feed pipeline for a retrieved candidate list: compute the user
vector, score every candidate, drop the excluded ones, sort descending by
score and truncate. -/
noncomputable def recoFeedEvents (w : Weights) (clock : Clock) (req : FeedRequest)
    (user : FeedUser) (interactions : List FeedInteraction)
    (events : List FeedEvent) : List ScoredEvent :=
  let userVector := feedUserVector user interactions
  let searchVibes := user.vibePrefs ++ req.vibes
  rankAndLimit req.maxResults
    (events.filterMap (scoreEvent w req clock searchVibes userVector))

/-! ## Taste Vector Aggregator (`computeUserTasteVector`, embeddings module) -/

/-- An interaction row as consumed by `computeUserTasteVector`.  `createdAt`
is a `Date` (truthy whenever present), `dwellMs` a number (0 is falsy),
`embedding` the event's embedding vector when one exists. -/
structure TasteInteraction where
  action : String
  createdAt : Option Int
  dwellMs : Option ℝ
  embedding : Option (List ℝ)

/-- The `options` argument: an action-to-weight map (absent actions weigh 0,
matching `actionWeights[interaction.action] || 0`), the recency-decay toggle
and the half-life in days. -/
structure TasteOptions where
  actionWeights : String → ℝ
  recencyDecay : Bool
  decayHalfLifeDays : ℝ

/-- The default options `{ going: 1.0, cosign: 0.8, view: 0.1, hide: -0.5 }`,
decay on, half-life 30 days. -/
noncomputable def defaultTasteOptions : TasteOptions where
  actionWeights a :=
    if a = "going" then 1.0
    else if a = "cosign" then 0.8
    else if a = "view" then 0.1
    else if a = "hide" then -0.5
    else 0
  recencyDecay := true
  decayHalfLifeDays := 30

/-- Model of `vector[index] += value * weight` over an 8-dim embedding. -/
def addScaled (acc emb : List ℝ) (w : ℝ) : List ℝ :=
  List.zipWith (fun a e => a + e * w) acc emb

open Classical in
/-- The effective weight of one interaction: action weight, times the recency
decay factor `0.5 ^ (daysSince / halfLife)` when enabled and `createdAt` is
present, times the dwell boost `min(2, 1 + dwellMs / 30000)` for views with a
non-zero dwell time. -/
noncomputable def interactionWeight (nowMs : Int) (opts : TasteOptions)
    (i : TasteInteraction) : ℝ :=
  let w0 := opts.actionWeights i.action
  let w1 :=
    if opts.recencyDecay then
      match i.createdAt with
      | some c =>
        w0 * (0.5 : ℝ) ^ ((((nowMs - c : Int) : ℝ) / 86400000) / opts.decayHalfLifeDays)
      | none => w0
    else w0
  if i.action = "view" then
    match i.dwellMs with
    | some dw => if dw = 0 then w1 else w1 * min 2 (1 + dw / 30000)
    | none => w1
  else w1

open Classical in
/-- The per-interaction accumulation step of `computeUserTasteVector`: skip
interactions without a valid 8-dim embedding and interactions of weight 0,
otherwise add the scaled embedding into the running vector and the absolute
weight into the normalizer. -/
noncomputable def tasteStep (nowMs : Int) (opts : TasteOptions)
    (acc : List ℝ × ℝ) (i : TasteInteraction) : List ℝ × ℝ :=
  match i.embedding with
  | some emb =>
    if emb.length = 8 then
      let w := interactionWeight nowMs opts i
      if w = 0 then acc
      else (addScaled acc.1 emb w, acc.2 + |w|)
    else acc
  | none => acc

open Classical in
/-- Model of `computeUserTasteVector(interactions, options)` from the embeddings
module: weighted accumulation of the 8-dim embeddings of the interactions,
divided by the total absolute weight when positive, then L2-normalized;
`[]` for an empty input. -/
noncomputable def computeUserTasteVector (nowMs : Int)
    (interactions : List TasteInteraction) (opts : TasteOptions) : List ℝ :=
  if interactions.length = 0 then []
  else
    let acc := interactions.foldl (tasteStep nowMs opts) (List.replicate 8 0, 0)
    let vector := if acc.2 > 0 then acc.1.map fun x => x / acc.2 else acc.1
    normalizeVector vector

/-! ## Feedback Updater (`POST /api/reco/feedback`, server.js)

The persisted store is modelled by association lists keyed by numeric ids
(unique keys); `updateA` applies an update to every row with the key, which
matches the SQL `UPDATE .. WHERE id =` issued by `prisma.*.update` (when no
row matches, the real call raises and later statements are skipped, but no
claim depends on the raised error).  Arithmetic is exact decimal arithmetic
in `ℚ`.
-/

/-- User row: only the trust score matters to the claims. -/
structure StoreUser where
  trustScore : ℚ

/-- Event row: owning host and popularity score. -/
structure StoreEvent where
  hostId : Nat
  popularityScore : ℚ

/-- Logged interaction row: user, event, action, dwell time. -/
structure StoreInteraction where
  userId : Nat
  eventId : Nat
  action : String
  dwellMs : Option Int

/-- The persisted state touched by the feedback route. -/
structure FeedbackStore where
  users : List (Nat × StoreUser)
  events : List (Nat × StoreEvent)
  interactions : List StoreInteraction

/-- Model of `findUnique`: the first row with the key, if any. -/
def lookupA {α : Type} (l : List (Nat × α)) (k : Nat) : Option α :=
  (l.find? fun p => p.1 == k).map fun p => p.2

/-- Model of `update .. where id = k`: rewrite every row with the key. -/
def updateA {α : Type} (l : List (Nat × α)) (k : Nat) (f : α → α) : List (Nat × α) :=
  l.map fun p => if p.1 = k then (p.1, f p.2) else p

/-- The `POPULARITY_IMPACT` table (server.js lines 192-197); the lookup of any other
action yields `undefined ?? 0 = 0`. -/
def POPULARITY_IMPACT : String → ℚ
  | "view" => 0.1
  | "cosign" => 0.6
  | "going" => 1
  | "hide" => -0.8
  | _ => 0

/-- Model of `POST /api/reco/feedback`: reject when user or event is missing (404,
no mutation); otherwise append the interaction, apply the popularity delta
when non-zero and, for `going`/`cosign`, increment the host's trust by
`max(delta, 0) * 0.05`. -/
def applyFeedback (s : FeedbackStore) (userId eventId : Nat) (action : String)
    (dwellMs : Option Int) : Option FeedbackStore :=
  match lookupA s.users userId, lookupA s.events eventId with
  | some _, some event =>
    let s1 := { s with
      interactions := s.interactions ++ [⟨userId, eventId, action, dwellMs⟩] }
    let delta := POPULARITY_IMPACT action
    if delta = 0 then some s1
    else
      let s2 := { s1 with
        events := updateA s1.events eventId fun e =>
          { e with popularityScore := e.popularityScore + delta } }
      if action = "going" ∨ action = "cosign" then
        some { s2 with
          users := updateA s2.users event.hostId fun u =>
            { u with trustScore := u.trustScore + max delta 0 * 0.05 } }
      else some s2
  | _, _ => none

/-- One feedback HTTP request as a state transition: a rejected request
mutates nothing. -/
def applyFeedbackTotal (s : FeedbackStore) (fb : Nat × Nat × String × Option Int) :
    FeedbackStore :=
  match applyFeedback s fb.1 fb.2.1 fb.2.2.1 fb.2.2.2 with
  | some s2 => s2
  | none => s

/-- The popularity score stored for an event id (0 when absent). -/
def popularityOf (s : FeedbackStore) (eventId : Nat) : ℚ :=
  ((lookupA s.events eventId).map fun e => e.popularityScore).getD 0

/-- The trust score stored for a user id (0 when absent). -/
def trustOf (s : FeedbackStore) (userId : Nat) : ℚ :=
  ((lookupA s.users userId).map fun u => u.trustScore).getD 0

/-- The claim's wording for the fallback: the component-wise arithmetic mean
of the embedding vectors, with no action weights, recency decay, dwell boost
or normalization. -/
noncomputable def specMeanVector (vs : List (List ℝ)) : List ℝ :=
  (List.range 8).map fun i => (vs.map fun v => v.getD i 0).sum / (vs.length : ℝ)

/-! ### Facts about the vector primitives -/

theorem sumSq_nonneg (v : List ℝ) : 0 ≤ sumSq v := by
  induction v with
  | nil => simp [sumSq]
  | cons x t ih =>
    simp only [sumSq, List.map_cons, List.sum_cons] at *
    nlinarith [mul_self_nonneg x]

theorem sumSq_eq_zero_iff (v : List ℝ) :
    sumSq v = 0 ↔ v = List.replicate v.length 0 := by
  induction v with
  | nil => simp [sumSq]
  | cons x t ih =>
    simp only [sumSq, List.map_cons, List.sum_cons, List.length_cons,
      List.replicate_succ, List.cons.injEq] at *
    constructor
    · intro h
      have hx2 : 0 ≤ x * x := mul_self_nonneg x
      have ht : 0 ≤ sumSq t := sumSq_nonneg t
      have hx : x * x = 0 := by
        simp only [sumSq] at ht; linarith
      have : x = 0 := by nlinarith
      refine ⟨this, ih.mp ?_⟩
      simp only [sumSq] at *
      linarith
    · rintro ⟨hx, ht⟩
      have := ih.mpr ht
      simp only [sumSq] at this
      simp [hx, this]

theorem magnitude_eq_zero_iff (v : List ℝ) :
    magnitude v = 0 ↔ sumSq v = 0 := by
  unfold magnitude
  constructor
  · intro h
    have := Real.sqrt_eq_zero (sumSq_nonneg v) |>.mp h
    exact this
  · intro h; rw [h, Real.sqrt_zero]

theorem length_normalizeVector (v : List ℝ) :
    (normalizeVector v).length = v.length := by
  unfold normalizeVector
  split <;> simp

theorem sumSq_map_div (v : List ℝ) (c : ℝ) :
    sumSq (v.map fun x => x / c) = sumSq v / (c * c) := by
  induction v with
  | nil => simp [sumSq]
  | cons x t ih =>
    simp only [sumSq, List.map_cons, List.sum_cons, List.map_map] at *
    rw [ih]
    ring

/-- After `normalizeVector`, the sum of squares is 1 unless the input was the
all-zero vector, in which case the input is returned unchanged. -/
theorem sumSq_normalizeVector (v : List ℝ) (h : sumSq v ≠ 0) :
    sumSq (normalizeVector v) = 1 := by
  have hpos : 0 < sumSq v := lt_of_le_of_ne (sumSq_nonneg v) (Ne.symm h)
  have hmag : magnitude v ≠ 0 := by
    rw [Ne, magnitude_eq_zero_iff]; exact h
  unfold normalizeVector
  rw [if_neg hmag, sumSq_map_div]
  unfold magnitude
  rw [Real.mul_self_sqrt (le_of_lt hpos)]
  field_simp

theorem normalizeVector_zero (v : List ℝ) (h : sumSq v = 0) :
    normalizeVector v = v := by
  unfold normalizeVector
  rw [if_pos]
  rw [magnitude_eq_zero_iff]; exact h

/-! ### Cosine similarity facts -/

theorem sumSq_eq_range (v : List ℝ) :
    sumSq v = ∑ i in Finset.range v.length, v.getD i 0 ^ 2 := by
  induction v with
  | nil => simp [sumSq]
  | cons x t ih =>
    simp only [sumSq, List.map_cons, List.sum_cons, List.length_cons] at *
    rw [Finset.sum_range_succ']
    simp only [List.getD_cons_succ, List.getD_cons_zero]
    rw [← ih]
    ring

theorem dotList_eq_range (a b : List ℝ) (h : a.length = b.length) :
    dotList a b = ∑ i in Finset.range a.length, a.getD i 0 * b.getD i 0 := by
  induction a generalizing b with
  | nil => simp [dotList]
  | cons x t ih =>
    cases b with
    | nil => simp at h
    | cons y s =>
      simp only [List.length_cons, Nat.succ.injEq] at h
      simp only [dotList, List.zipWith_cons_cons, List.sum_cons, List.length_cons]
      rw [Finset.sum_range_succ']
      simp only [List.getD_cons_succ, List.getD_cons_zero]
      have ht : (List.zipWith (· * ·) t s).sum =
          ∑ i in Finset.range t.length, t.getD i 0 * s.getD i 0 := ih s h
      rw [ht]; ring

theorem cauchy_schwarz_list (a b : List ℝ) (h : a.length = b.length) :
    dotList a b ^ 2 ≤ sumSq a * sumSq b := by
  rw [dotList_eq_range a b h, sumSq_eq_range, sumSq_eq_range, ← h]
  exact Finset.sum_mul_sq_le_sq_mul_sq _ _ _

theorem dotList_comm (a b : List ℝ) : dotList a b = dotList b a := by
  unfold dotList
  rw [List.zipWith_comm_of_comm _ mul_comm]

theorem dotList_self (a : List ℝ) : dotList a a = sumSq a := by
  unfold dotList sumSq
  rw [List.zipWith_same]

theorem sumSq_pos_of_mem (a : List ℝ) (h : ∃ x ∈ a, x ≠ 0) : 0 < sumSq a := by
  rcases lt_or_eq_of_le (sumSq_nonneg a) with hp | hz
  · exact hp
  · exfalso
    obtain ⟨x, hx, hne⟩ := h
    have := (sumSq_eq_zero_iff a).mp hz.symm
    rw [this] at hx
    exact hne (List.eq_of_mem_replicate hx)

theorem cosineSimilarity_comm (a b : List ℝ) :
    cosineSimilarity a b = cosineSimilarity b a := by
  unfold cosineSimilarity
  by_cases h1 : a.length = 0 ∨ b.length = 0 ∨ a.length ≠ b.length
  · have h2 : b.length = 0 ∨ a.length = 0 ∨ b.length ≠ a.length := by tauto
    rw [if_pos h1, if_pos h2]
  · have h2 : ¬(b.length = 0 ∨ a.length = 0 ∨ b.length ≠ a.length) := by tauto
    rw [if_neg h1, if_neg h2]
    by_cases h3 : Real.sqrt (sumSq a) = 0 ∨ Real.sqrt (sumSq b) = 0
    · have h4 : Real.sqrt (sumSq b) = 0 ∨ Real.sqrt (sumSq a) = 0 := by tauto
      rw [if_pos h3, if_pos h4]
    · have h4 : ¬(Real.sqrt (sumSq b) = 0 ∨ Real.sqrt (sumSq a) = 0) := by tauto
      rw [if_neg h3, if_neg h4, dotList_comm, mul_comm]

theorem cosineSimilarity_bounds (a b : List ℝ) :
    -1 ≤ cosineSimilarity a b ∧ cosineSimilarity a b ≤ 1 := by
  unfold cosineSimilarity
  by_cases h1 : a.length = 0 ∨ b.length = 0 ∨ a.length ≠ b.length
  · rw [if_pos h1]; norm_num
  · rw [if_neg h1]
    by_cases h3 : Real.sqrt (sumSq a) = 0 ∨ Real.sqrt (sumSq b) = 0
    · rw [if_pos h3]; norm_num
    · rw [if_neg h3]
      push_neg at h1 h3
      have hlen : a.length = b.length := h1.2.2
      have hA : 0 < Real.sqrt (sumSq a) :=
        lt_of_le_of_ne (Real.sqrt_nonneg _) (Ne.symm h3.1)
      have hB : 0 < Real.sqrt (sumSq b) :=
        lt_of_le_of_ne (Real.sqrt_nonneg _) (Ne.symm h3.2)
      have habs : |dotList a b| ≤ Real.sqrt (sumSq a) * Real.sqrt (sumSq b) := by
        have hcs := cauchy_schwarz_list a b hlen
        have h1' : |dotList a b| = Real.sqrt (dotList a b ^ 2) :=
          (Real.sqrt_sq_eq_abs _).symm
        rw [h1', ← Real.sqrt_mul (sumSq_nonneg a)]
        exact Real.sqrt_le_sqrt hcs
      have hpos : 0 < Real.sqrt (sumSq a) * Real.sqrt (sumSq b) := mul_pos hA hB
      constructor
      · rw [le_div_iff₀ hpos]
        nlinarith [abs_le.mp habs]
      · rw [div_le_one hpos]
        exact le_of_abs_le habs

theorem cosineSimilarity_self (a : List ℝ) (h : ∃ x ∈ a, x ≠ 0) :
    cosineSimilarity a a = 1 := by
  have hpos := sumSq_pos_of_mem a h
  have hne : a.length ≠ 0 := by
    obtain ⟨x, hx, -⟩ := h
    simp [List.length_eq_zero]
    rintro rfl; simp at hx
  have hsqrt : 0 < Real.sqrt (sumSq a) := Real.sqrt_pos.mpr hpos
  unfold cosineSimilarity
  rw [if_neg (by tauto), if_neg (by push_neg; exact ⟨ne_of_gt hsqrt, ne_of_gt hsqrt⟩)]
  rw [dotList_self, Real.mul_self_sqrt (le_of_lt (sumSq_pos_of_mem a h))]
  field_simp

theorem cosineSimilarity_degenerate (a b : List ℝ)
    (h : a = [] ∨ b = [] ∨ a.length ≠ b.length) :
    cosineSimilarity a b = 0 := by
  unfold cosineSimilarity
  rw [if_pos]
  rcases h with h | h | h
  · left; simp [h]
  · right; left; simp [h]
  · right; right; exact h

/-! ### Length and zero-preservation lemmas for the accumulator -/

theorem length_bumpAdd (v : List ℚ) (dw : Nat × ℚ) :
    (bumpAdd v dw).length = v.length := by
  simp [bumpAdd]

theorem length_foldl_preserved {α : Type} (f : List ℚ → α → List ℚ) (l : List α)
    (hf : ∀ v x, (f v x).length = v.length) (v : List ℚ) :
    (l.foldl f v).length = v.length := by
  induction l generalizing v with
  | nil => rfl
  | cons x t ih => rw [List.foldl_cons, ih, hf]

theorem length_applyWeights (ws : List (Nat × ℚ)) (v : List ℚ) :
    (applyWeights v ws).length = v.length :=
  length_foldl_preserved bumpAdd ws length_bumpAdd v

theorem length_applyWeightsScaled (ws : List (Nat × ℚ)) (v : List ℚ) (s : ℚ) :
    (applyWeightsScaled v ws s).length = v.length :=
  length_foldl_preserved _ ws (fun v dw => length_bumpAdd v (dw.1, dw.2 * s)) v

theorem length_vibeStage (v : List ℚ) (tags : List String) :
    (vibeStage v tags).length = v.length := by
  refine length_foldl_preserved _ tags (fun v tag => ?_) v
  cases VIBE_WEIGHTS tag with
  | none => rfl
  | some ws => exact length_applyWeights ws v

theorem length_keywordStage (v : List ℚ) (text : List Char) :
    (keywordStage v text).length = v.length := by
  refine length_foldl_preserved _ KEYWORD_PATTERNS (fun v pw => ?_) v
  split
  · exact length_applyWeights pw.2 v
  · rfl

theorem length_timeStage (v : List ℚ) (t : Option Int) :
    (timeStage v t).length = v.length := by
  unfold timeStage
  cases t with
  | none => rfl
  | some t =>
    simp only []
    repeat' first | rw [length_bumpAdd] | split | rfl

theorem length_capacityStage (v : List ℚ) (c : Option Int) :
    (capacityStage v c).length = v.length := by
  unfold capacityStage
  cases c with
  | none => rfl
  | some c =>
    repeat' first | rw [length_bumpAdd] | split | rfl

theorem length_ageStage (v : List ℚ) (a : Option String) :
    (ageStage v a).length = v.length := by
  unfold ageStage
  cases a with
  | none => rfl
  | some a =>
    repeat' first | rw [length_bumpAdd] | split | rfl

theorem length_rawEventVector (e : EmbedEvent) :
    (rawEventVector e).length = 8 := by
  unfold rawEventVector
  rw [length_ageStage, length_capacityStage, length_timeStage, length_keywordStage,
    length_applyWeightsScaled, length_vibeStage, List.length_replicate]

theorem length_generateEventEmbedding (e : EmbedEvent) :
    (generateEventEmbedding e).length = 8 := by
  rw [generateEventEmbedding, length_normalizeVector, List.length_map,
    length_rawEventVector]

/-! ### A signal-free event accumulates the zero vector -/

theorem vibeStage_of_no_signal (v : List ℚ) (tags : List String)
    (h : tags.any (fun tag => (VIBE_WEIGHTS tag).isSome) = false) :
    vibeStage v tags = v := by
  induction tags generalizing v with
  | nil => rfl
  | cons tag t ih =>
    simp only [List.any_cons, Bool.or_eq_false_iff] at h
    have htag : VIBE_WEIGHTS tag = none := by
      cases hw : VIBE_WEIGHTS tag with
      | none => rfl
      | some ws => rw [hw] at h; simp at h
    unfold vibeStage at *
    rw [List.foldl_cons, htag]
    exact ih v h.2

theorem keywordStage_of_no_signal (v : List ℚ) (text : List Char)
    (h : KEYWORD_PATTERNS.any (fun pw => patternTest text pw.1) = false) :
    keywordStage v text = v := by
  unfold keywordStage
  generalize KEYWORD_PATTERNS = ps at h ⊢
  induction ps generalizing v with
  | nil => rfl
  | cons p t ih =>
    simp only [List.any_cons, Bool.or_eq_false_iff] at h
    rw [List.foldl_cons, if_neg (by simp [h.1])]
    exact ih v h.2

theorem timeStage_of_no_signal (v : List ℚ) (st : Option Int)
    (h : (match st with
      | none => false
      | some t =>
        let hour := jsHours t
        decide (hour ≥ 18 ∨ hour ≤ 2) || decide (hour ≥ 6 ∧ hour ≤ 9)) = false) :
    timeStage v st = v := by
  cases st with
  | none => rfl
  | some t =>
    simp only [Bool.or_eq_false_iff, decide_eq_false_iff_not] at h
    simp only [timeStage]
    rw [if_neg h.1, if_neg h.2]

theorem capacityStage_of_no_signal (v : List ℚ) (c : Option Int)
    (h : (match c with
      | none => false
      | some c => !decide (c = 0) && (decide (c ≤ 30) || decide (c ≥ 200))) = false) :
    capacityStage v c = v := by
  cases c with
  | none => rfl
  | some c =>
    simp only [capacityStage]
    by_cases hz : c = 0
    · rw [if_pos hz]
    · simp only [hz, decide_False, Bool.not_false, Bool.true_and,
        Bool.or_eq_false_iff, decide_eq_false_iff_not] at h
      rw [if_neg hz, if_neg h.1, if_neg h.2]

theorem ageStage_of_no_signal (v : List ℚ) (a : Option String)
    (h : (match a with
      | none => false
      | some a => decide (a = "19+" ∨ a = "21+") || decide (a = "All ages")) = false) :
    ageStage v a = v := by
  cases a with
  | none => rfl
  | some a =>
    simp only [Bool.or_eq_false_iff, decide_eq_false_iff_not] at h
    simp only [ageStage]
    rw [if_neg h.1, if_neg h.2]

theorem rawEventVector_of_no_signal (e : EmbedEvent)
    (h : signalPresent e = false) :
    rawEventVector e = List.replicate 8 0 := by
  unfold signalPresent at h
  simp only [Bool.or_eq_false_iff] at h
  obtain ⟨⟨⟨⟨⟨hvibe, htype⟩, hkw⟩, htime⟩, hcap⟩, hage⟩ := h
  have htype' : EVENT_TYPE_WEIGHTS e.eventType = [] := by
    cases hw : EVENT_TYPE_WEIGHTS e.eventType with
    | nil => rfl
    | cons x t => rw [hw] at htype; simp at htype
  have happ : applyWeightsScaled (List.replicate 8 0) [] 1.2 = List.replicate 8 0 := rfl
  unfold rawEventVector
  rw [vibeStage_of_no_signal _ _ hvibe, htype', happ,
    keywordStage_of_no_signal _ _ hkw, timeStage_of_no_signal _ _ htime,
    capacityStage_of_no_signal _ _ hcap, ageStage_of_no_signal _ _ hage]

theorem sumSq_replicate_zero (n : Nat) : sumSq (List.replicate n 0) = 0 := by
  simp [sumSq, List.map_replicate, List.sum_replicate]

theorem generateEventEmbedding_of_no_signal (e : EmbedEvent)
    (h : signalPresent e = false) :
    generateEventEmbedding e = List.replicate 8 0 := by
  rw [generateEventEmbedding, rawEventVector_of_no_signal e h]
  simp only [List.map_replicate, Rat.cast_zero]
  exact normalizeVector_zero _ (sumSq_replicate_zero 8)

/-! ## Association-list lemmas -/

theorem lookupA_cons {α : Type} (q : Nat × α) (r : List (Nat × α)) (j : Nat) :
    lookupA (q :: r) j = if q.1 = j then some q.2 else lookupA r j := by
  by_cases hq : q.1 = j
  · simp [lookupA, List.find?_cons_of_pos, hq]
  · rw [if_neg hq]
    simp only [lookupA]
    rw [List.find?_cons_of_neg _ (by simp [hq])]

theorem updateA_cons {α : Type} (q : Nat × α) (r : List (Nat × α)) (k : Nat) (f : α → α) :
    updateA (q :: r) k f = (if q.1 = k then (q.1, f q.2) else q) :: updateA r k f := rfl

theorem lookupA_updateA_self {α : Type} (l : List (Nat × α)) (k : Nat) (f : α → α) :
    lookupA (updateA l k f) k = (lookupA l k).map f := by
  induction l with
  | nil => rfl
  | cons p t ih =>
    rw [updateA_cons, lookupA_cons, lookupA_cons]
    by_cases h : p.1 = k
    · rw [if_pos h, if_pos (by simp [h]), if_pos h]; rfl
    · rw [if_neg h, if_neg h, if_neg h, ih]

theorem lookupA_updateA_ne {α : Type} (l : List (Nat × α)) (k j : Nat) (f : α → α)
    (h : j ≠ k) :
    lookupA (updateA l k f) j = lookupA l j := by
  induction l with
  | nil => rfl
  | cons p t ih =>
    rw [updateA_cons, lookupA_cons, lookupA_cons]
    by_cases hk : p.1 = k
    · have hj : ¬p.1 = j := by rw [hk]; exact fun hc => h hc.symm
      rw [if_pos hk, if_neg (by simpa using hj), if_neg hj, ih]
    · rw [if_neg hk]
      by_cases hj : p.1 = j
      · rw [if_pos hj, if_pos hj]
      · rw [if_neg hj, if_neg hj, ih]

/-! ## Feedback lemmas -/

theorem applyFeedback_going (s : FeedbackStore) (uid eid : Nat) (dw : Option Int)
    (u : StoreUser) (e : StoreEvent)
    (hu : lookupA s.users uid = some u) (he : lookupA s.events eid = some e) :
    applyFeedback s uid eid "going" dw = some
      { users := updateA s.users e.hostId fun x =>
          { x with trustScore := x.trustScore + max (POPULARITY_IMPACT "going") 0 * 0.05 },
        events := updateA s.events eid fun x =>
          { x with popularityScore := x.popularityScore + POPULARITY_IMPACT "going" },
        interactions := s.interactions ++ [⟨uid, eid, "going", dw⟩] } := by
  simp only [applyFeedback, hu, he]
  rw [if_neg (by norm_num [POPULARITY_IMPACT] : ¬POPULARITY_IMPACT "going" = 0)]
  simp

theorem applyFeedback_hide (s : FeedbackStore) (uid eid : Nat) (dw : Option Int)
    (u : StoreUser) (e : StoreEvent)
    (hu : lookupA s.users uid = some u) (he : lookupA s.events eid = some e) :
    applyFeedback s uid eid "hide" dw = some
      { users := s.users,
        events := updateA s.events eid fun x =>
          { x with popularityScore := x.popularityScore + POPULARITY_IMPACT "hide" },
        interactions := s.interactions ++ [⟨uid, eid, "hide", dw⟩] } := by
  simp only [applyFeedback, hu, he]
  rw [if_neg (by norm_num [POPULARITY_IMPACT] : ¬POPULARITY_IMPACT "hide" = 0),
    if_neg (by simp : ¬("hide" = "going" ∨ "hide" = "cosign"))]

theorem trust_lookup_update_add (l : List (Nat × StoreUser)) (k j : Nat) (c : ℚ)
    (hc : 0 ≤ c) :
    ((lookupA l j).map fun u => u.trustScore).getD 0 ≤
      ((lookupA (updateA l k fun u => { u with trustScore := u.trustScore + c }) j).map
        fun u => u.trustScore).getD 0 := by
  by_cases h : j = k
  · subst h
    rw [lookupA_updateA_self]
    cases hl : lookupA l j with
    | none => simp
    | some u => simp; linarith
  · rw [lookupA_updateA_ne _ _ _ _ h]

theorem trustOf_applyFeedbackTotal_le (s : FeedbackStore)
    (fb : Nat × Nat × String × Option Int) (j : Nat) :
    trustOf s j ≤ trustOf (applyFeedbackTotal s fb) j := by
  unfold applyFeedbackTotal
  cases happ : applyFeedback s fb.1 fb.2.1 fb.2.2.1 fb.2.2.2 with
  | none => exact le_refl _
  | some s2 =>
    unfold applyFeedback at happ
    cases hu : lookupA s.users fb.1 with
    | none => rw [hu] at happ; simp at happ
    | some u =>
      cases he : lookupA s.events fb.2.1 with
      | none => rw [hu, he] at happ; simp at happ
      | some e =>
        rw [hu, he] at happ
        simp only [] at happ
        split_ifs at happ with h0 hpos
        · cases happ
          exact le_refl _
        · cases happ
          unfold trustOf
          exact trust_lookup_update_add s.users e.hostId j _
            (mul_nonneg (le_max_right _ _) (by norm_num))
        · cases happ
          exact le_refl _

/-! ## Claim theorems -/

/-- C4: for an existing user, event and host, feedback `going` adds exactly
1.0 to the event's popularity score and exactly 0.05 to the host's trust
score; feedback `hide` subtracts exactly 0.8 from the popularity score and
leaves every user's trust score unchanged. -/
theorem C4_feedback_deltas (s : FeedbackStore) (uid eid : Nat) (dw : Option Int)
    (u host : StoreUser) (e : StoreEvent)
    (hu : lookupA s.users uid = some u)
    (he : lookupA s.events eid = some e)
    (hh : lookupA s.users e.hostId = some host) :
    (∃ s2, applyFeedback s uid eid "going" dw = some s2 ∧
      popularityOf s2 eid = popularityOf s eid + 1 ∧
      trustOf s2 e.hostId = trustOf s e.hostId + 0.05) ∧
    (∃ s2, applyFeedback s uid eid "hide" dw = some s2 ∧
      popularityOf s2 eid = popularityOf s eid - 0.8 ∧
      ∀ j, trustOf s2 j = trustOf s j) := by
  constructor
  · refine ⟨_, applyFeedback_going s uid eid dw u e hu he, ?_, ?_⟩
    · unfold popularityOf
      simp only []
      rw [lookupA_updateA_self, he]
      simp [POPULARITY_IMPACT]
    · unfold trustOf
      rw [lookupA_updateA_self, hh]
      simp only [Option.map_some', Option.getD_some]
      rw [max_eq_left (by norm_num [POPULARITY_IMPACT] : (0:ℚ) ≤ POPULARITY_IMPACT "going")]
      norm_num [POPULARITY_IMPACT]
  · refine ⟨_, applyFeedback_hide s uid eid dw u e hu he, ?_, fun j => rfl⟩
    unfold popularityOf
    rw [lookupA_updateA_self, he]
    simp only [Option.map_some', Option.getD_some]
    norm_num [POPULARITY_IMPACT]
    ring

/-- Witness for C4 at a concrete two-user store. -/
theorem C4_witness :
    (∃ s2, applyFeedback ⟨[(1, ⟨0.5⟩), (2, ⟨0.3⟩)], [(10, ⟨2, 1⟩)], []⟩ 1 10 "going" none =
        some s2 ∧
      popularityOf s2 10 =
        popularityOf ⟨[(1, ⟨0.5⟩), (2, ⟨0.3⟩)], [(10, ⟨2, 1⟩)], []⟩ 10 + 1 ∧
      trustOf s2 2 = trustOf ⟨[(1, ⟨0.5⟩), (2, ⟨0.3⟩)], [(10, ⟨2, 1⟩)], []⟩ 2 + 0.05) ∧
    (∃ s2, applyFeedback ⟨[(1, ⟨0.5⟩), (2, ⟨0.3⟩)], [(10, ⟨2, 1⟩)], []⟩ 1 10 "hide" none =
        some s2 ∧
      popularityOf s2 10 =
        popularityOf ⟨[(1, ⟨0.5⟩), (2, ⟨0.3⟩)], [(10, ⟨2, 1⟩)], []⟩ 10 - 0.8 ∧
      ∀ j, trustOf s2 j = trustOf ⟨[(1, ⟨0.5⟩), (2, ⟨0.3⟩)], [(10, ⟨2, 1⟩)], []⟩ j) :=
  C4_feedback_deltas ⟨[(1, ⟨0.5⟩), (2, ⟨0.3⟩)], [(10, ⟨2, 1⟩)], []⟩ 1 10 none
    ⟨0.5⟩ ⟨0.3⟩ ⟨2, 1⟩ rfl rfl rfl

/-- C5: across any sequence of feedback requests (any user, event, action and
dwell time, failed requests included), no user's stored trust score ever
decreases. -/
theorem C5_trust_never_decreases (fbs : List (Nat × Nat × String × Option Int))
    (s : FeedbackStore) (j : Nat) :
    trustOf s j ≤ trustOf (fbs.foldl applyFeedbackTotal s) j := by
  induction fbs generalizing s with
  | nil => exact le_refl _
  | cons fb t ih =>
    exact le_trans (trustOf_applyFeedbackTotal_le s fb j) (ih _)

/-- C9 (amended): with the `now` filter, `bucketByWhen` returns `now` exactly
when the start time is at most two hours after the evaluation time — there is
no lower bound on the start time in the bucketer itself. -/
theorem C9_bucket_now_iff (c : Clock) (t : Int) :
    bucketByWhen c t (some "now") = some "now" ↔ t ≤ c.nowMs + 2 * 60 * 60 * 1000 := by
  by_cases h : t ≤ c.nowMs + 2 * 60 * 60 * 1000
  · simp [bucketByWhen, h]
  · simp [bucketByWhen, h]

/-- Counterexample for C9 as stated: an event that started an hour before the
evaluation time is still bucketed `now`, so "within the next 2 hours" (start
between evaluation time and evaluation time + 2h) is not equivalent to the
code's classification. -/
theorem C9_counterexample :
    ¬(bucketByWhen ⟨0, 0, 0⟩ (-3600000) (some "now") = some "now" ↔
      (0 ≤ (-3600000 : Int) ∧ (-3600000 : Int) ≤ 0 + 2 * 60 * 60 * 1000)) := by
  decide

/-- C8 (amended): for a known distance the component is
`weight_distance * max(0, 1 - d / max(r, 1))`; this agrees with the claimed
`weight_distance * max(0, 1 - d / r)` whenever `r ≥ 1` km; an unknown
distance contributes 0. -/
theorem C8_distance_component (w : Weights) (d r : ℝ) :
    distanceScoreOf w (some d) r = w.distance * max 0 (1 - d / max r 1) ∧
    (1 ≤ r → distanceScoreOf w (some d) r = w.distance * max 0 (1 - d / r)) ∧
    distanceScoreOf w none r = 0 := by
  refine ⟨rfl, fun h => ?_, rfl⟩
  simp only [distanceScoreOf]
  rw [max_eq_left h]

/-- Witness for C8 at distance 3 km and radius 10 km. -/
theorem C8_witness :
    (1 : ℝ) ≤ 10 ∧
    distanceScoreOf defaultWeights (some 3) 10 =
      defaultWeights.distance * max 0 (1 - 3 / 10) :=
  ⟨by norm_num, (C8_distance_component defaultWeights 3 10).2.1 (by norm_num)⟩

/-- Counterexample for C8 as stated: with radius 0.5 km and distance 0.5 km
the code divides by `max(0.5, 1) = 1` and scores `1.5 * 0.5 = 0.75`, while
the claimed formula `w * max(0, 1 - d/r)` gives 0. -/
theorem C8_counterexample :
    ¬(distanceScoreOf defaultWeights (some 0.5) 0.5 =
      defaultWeights.distance * max 0 (1 - 0.5 / 0.5)) := by
  have h1 : max (0.5 : ℝ) 1 = 1 := max_eq_right (by norm_num)
  have h2 : max (0 : ℝ) (1 - 0.5 / 1) = 0.5 := by
    rw [max_eq_right] <;> norm_num
  have h3 : max (0 : ℝ) (1 - 0.5 / 0.5) = 0 := by
    norm_num
  simp only [distanceScoreOf, defaultWeights, h1, h2, h3]
  norm_num

/-- C6: cosine similarity is symmetric, bounded in [-1, 1], exactly 1 on any
identical pair of vectors with a nonzero entry, and exactly 0 when either
input is empty or the lengths differ. -/
theorem C6_cosine_properties :
    (∀ a b : List ℝ, cosineSimilarity a b = cosineSimilarity b a) ∧
    (∀ a b : List ℝ, -1 ≤ cosineSimilarity a b ∧ cosineSimilarity a b ≤ 1) ∧
    (∀ a : List ℝ, (∃ x ∈ a, x ≠ 0) → cosineSimilarity a a = 1) ∧
    (∀ a b : List ℝ, a = [] ∨ b = [] ∨ a.length ≠ b.length → cosineSimilarity a b = 0) :=
  ⟨cosineSimilarity_comm, cosineSimilarity_bounds, cosineSimilarity_self,
    cosineSimilarity_degenerate⟩

/-- Witness for C6: the unit case at `[1, 0]` and the degenerate case at
`([], [1])`. -/
theorem C6_witness :
    (∃ x ∈ ([1, 0] : List ℝ), x ≠ 0) ∧
    cosineSimilarity [1, 0] [1, 0] = 1 ∧
    cosineSimilarity [] [1] = 0 :=
  ⟨⟨1, by simp, by norm_num⟩,
    C6_cosine_properties.2.2.1 [1, 0] ⟨1, by simp, by norm_num⟩,
    C6_cosine_properties.2.2.2 [] [1] (Or.inl rfl)⟩

/-- C1 (amended): every generated embedding has exactly 8 entries; it has
unit L2 norm (sum of squares 1) unless it is the all-zero 8-vector; and when
no vibe, type, keyword, time, capacity or age signal contributes anything the
result is exactly the zero vector.  (Cancelling contributions can also
produce the zero vector: see the counterexample.) -/
theorem C1_embedding_unit_or_zero (e : EmbedEvent) :
    (generateEventEmbedding e).length = 8 ∧
    (sumSq (generateEventEmbedding e) = 1 ∨
      generateEventEmbedding e = List.replicate 8 0) ∧
    (signalPresent e = false → generateEventEmbedding e = List.replicate 8 0) := by
  refine ⟨length_generateEventEmbedding e, ?_, generateEventEmbedding_of_no_signal e⟩
  by_cases h : sumSq ((rawEventVector e).map Rat.cast) = 0
  · right
    rw [generateEventEmbedding, normalizeVector_zero _ h]
    have hz := (sumSq_eq_zero_iff _).mp h
    rwa [List.length_map, length_rawEventVector] at hz
  · left
    rw [generateEventEmbedding]
    exact sumSq_normalizeVector _ h

/-- Witness for C1 at an event with no signal at all. -/
theorem C1_witness :
    signalPresent ⟨"", "", [], "other", none, none, none⟩ = false ∧
    generateEventEmbedding ⟨"", "", [], "other", none, none, none⟩ =
      List.replicate 8 0 :=
  ⟨by decide, (C1_embedding_unit_or_zero _).2.2 (by decide)⟩

/-- Counterexample for C1 as stated: for the event titled
`intimate community` (type `other`), the `intimate` keyword contributes -0.3
and the `community` keyword +0.3 to the social-scale dimension; the signals
cancel exactly, so the embedding is the zero vector (norm 0, not 1) even
though keyword signals did contribute. -/
theorem C1_counterexample :
    ¬(((generateEventEmbedding
          ⟨"intimate community", "", [], "other", none, none, none⟩).length = 8 ∧
        sumSq (generateEventEmbedding
          ⟨"intimate community", "", [], "other", none, none, none⟩) = 1) ∨
      (generateEventEmbedding ⟨"intimate community", "", [], "other", none, none, none⟩ =
          List.replicate 8 0 ∧
        signalPresent ⟨"intimate community", "", [], "other", none, none, none⟩ = false)) := by
  have hraw : rawEventVector ⟨"intimate community", "", [], "other", none, none, none⟩ =
      List.replicate 8 0 := by
    simp +decide only [rawEventVector, vibeStage, keywordStage, KEYWORD_PATTERNS,
      applyWeightsScaled, applyWeights, timeStage, capacityStage, ageStage,
      EVENT_TYPE_WEIGHTS, bumpAdd, List.foldl, List.replicate,
      List.set_cons_zero, List.set_cons_succ, List.getD_cons_zero, List.getD_cons_succ]
    norm_num
  have hemb : generateEventEmbedding
      ⟨"intimate community", "", [], "other", none, none, none⟩ = List.replicate 8 0 := by
    rw [generateEventEmbedding, hraw]
    simp only [List.map_replicate, Rat.cast_zero]
    exact normalizeVector_zero _ (sumSq_replicate_zero 8)
  have hsig : signalPresent
      ⟨"intimate community", "", [], "other", none, none, none⟩ = true := by decide
  rintro (⟨-, h1⟩ | ⟨-, h2⟩)
  · rw [hemb, sumSq_replicate_zero] at h1
    norm_num at h1
  · rw [hsig] at h2
    simp at h2

/-! ### The feed drops candidates beyond the radius (C3) -/

theorem scoreEvent_event_eq (w : Weights) (req : FeedRequest) (clock : Clock)
    (sv : List String) (uv : List ℝ) (e : FeedEvent) (se : ScoredEvent)
    (h : scoreEvent w req clock sv uv e = some se) : se.event = e := by
  simp only [scoreEvent] at h
  cases hd : calculateDistance (some req.lat) (some req.lng) e.latitude e.longitude with
  | none =>
    rw [hd] at h
    simp only [] at h
    cases h
    rfl
  | some d =>
    rw [hd] at h
    simp only [] at h
    by_cases hgt : d > req.radiusKm
    · rw [if_pos hgt] at h
      cases h
    · rw [if_neg hgt] at h
      cases h
      rfl

theorem scoreEvent_excludes (w : Weights) (req : FeedRequest) (clock : Clock)
    (sv : List String) (uv : List ℝ) (e : FeedEvent) (d : ℝ)
    (hd : calculateDistance (some req.lat) (some req.lng) e.latitude e.longitude = some d)
    (hgt : d > req.radiusKm) :
    scoreEvent w req clock sv uv e = none := by
  simp only [scoreEvent]
  rw [hd]
  simp only []
  rw [if_pos hgt]

/-- C3: a candidate whose known distance from the request location exceeds
the requested radius never appears among the returned scored events. -/
theorem C3_radius_hard_filter (w : Weights) (clock : Clock) (req : FeedRequest)
    (user : FeedUser) (interactions : List FeedInteraction)
    (events : List FeedEvent) (e : FeedEvent) (d : ℝ)
    (hd : calculateDistance (some req.lat) (some req.lng) e.latitude e.longitude = some d)
    (hgt : d > req.radiusKm) :
    ∀ se ∈ recoFeedEvents w clock req user interactions events, se.event ≠ e := by
  intro se hse heq
  have h1 : se ∈ (events.filterMap
      (scoreEvent w req clock (user.vibePrefs ++ req.vibes)
        (feedUserVector user interactions))) := by
    unfold recoFeedEvents rankAndLimit jsSlice at hse
    exact List.mem_mergeSort.mp ((List.take_sublist _ _).mem hse)
  obtain ⟨x, hx, hfx⟩ := List.mem_filterMap.mp h1
  have hev := scoreEvent_event_eq _ _ _ _ _ _ _ hfx
  rw [hev.symm.trans heq] at hfx
  rw [scoreEvent_excludes _ _ _ _ _ _ _ hd hgt] at hfx
  cases hfx

/-- Witness for C3: a request at (0, 0) with the default 10 km radius and a
candidate on the opposite side of the globe (0, 180), at haversine distance
6371·π km. -/
theorem C3_witness :
    calculateDistance (some (0:ℝ)) (some 0) (some 0) (some 180) = some (6371 * Real.pi) ∧
    6371 * Real.pi > (10:ℝ) ∧
    ∀ se ∈ recoFeedEvents defaultWeights ⟨0, 0, 0⟩ ⟨0, 0, 10, none, [], 20⟩ ⟨[], none⟩ []
        [⟨some 0, some 180, 0, [], none, none, none, none, 0⟩],
      se.event ≠ ⟨some 0, some 180, 0, [], none, none, none, none, 0⟩ := by
  have hd : calculateDistance (some (0:ℝ)) (some 0) (some 0) (some 180) =
      some (6371 * Real.pi) := by
    simp only [calculateDistance]
    norm_num
    simp only [jsAtan2]
    rw [if_neg (lt_irrefl 0), if_neg (lt_irrefl 0), if_pos one_pos]
    ring
  have hgt : 6371 * Real.pi > (10:ℝ) := by
    nlinarith [Real.pi_gt_three]
  exact ⟨hd, hgt,
    C3_radius_hard_filter defaultWeights ⟨0, 0, 0⟩ ⟨0, 0, 10, none, [], 20⟩ ⟨[], none⟩ []
      [⟨some 0, some 180, 0, [], none, none, none, none, 0⟩]
      ⟨some 0, some 180, 0, [], none, none, none, none, 0⟩ (6371 * Real.pi) hd hgt⟩

/-! ### Sorting, truncation and the result cap (C2) -/

open Classical in
theorem scoreDesc_trans : ∀ a b c : ScoredEvent,
    decide (b.score ≤ a.score) → decide (c.score ≤ b.score) → decide (c.score ≤ a.score) := by
  intro a b c hab hbc
  simp only [decide_eq_true_eq] at *
  exact le_trans hbc hab

open Classical in
theorem scoreDesc_total : ∀ a b : ScoredEvent,
    decide (b.score ≤ a.score) || decide (a.score ≤ b.score) := by
  intro a b
  rcases le_total b.score a.score with h | h <;> simp [h]

open Classical in
/-- C2 (amended): for any request with a nonnegative `max`, the feed returns
at most 50 events, sorted in descending order of score, and events with equal
scores keep their candidate-list order (stability).  A negative `max` reaches
`Array.slice` as a negative end index and bypasses the cap: see the
counterexample. -/
theorem C2_feed_cap_sorted_stable (w : Weights) (clock : Clock) (req : FeedRequest)
    (user : FeedUser) (interactions : List FeedInteraction) (events : List FeedEvent)
    (hmax : 0 ≤ req.maxResults) :
    (recoFeedEvents w clock req user interactions events).length ≤ 50 ∧
    (recoFeedEvents w clock req user interactions events).Pairwise
      (fun a b => b.score ≤ a.score) ∧
    ∀ s : ℝ,
      ((recoFeedEvents w clock req user interactions events).filter
        fun se => decide (se.score = s)) <+
      ((events.filterMap (scoreEvent w req clock (user.vibePrefs ++ req.vibes)
          (feedUserVector user interactions))).filter fun se => decide (se.score = s)) := by
  have hout : recoFeedEvents w clock req user interactions events =
      jsSlice ((events.filterMap (scoreEvent w req clock (user.vibePrefs ++ req.vibes)
          (feedUserVector user interactions))).mergeSort
        fun a b => decide (b.score ≤ a.score)) (min req.maxResults 50) := rfl
  set scored := events.filterMap (scoreEvent w req clock (user.vibePrefs ++ req.vibes)
    (feedUserVector user interactions)) with hscored
  set sorted := scored.mergeSort fun a b => decide (b.score ≤ a.score) with hsorted
  have htake : recoFeedEvents w clock req user interactions events =
      sorted.take ((min (min req.maxResults 50) (sorted.length : Int)).toNat) := by
    rw [hout, jsSlice, if_neg (by omega)]
  refine ⟨?_, ?_, ?_⟩
  · rw [htake, List.length_take]
    omega
  · rw [htake]
    have hp : sorted.Pairwise fun a b => (decide (b.score ≤ a.score) : Bool) :=
      List.sorted_mergeSort scoreDesc_trans scoreDesc_total scored
    exact (List.Pairwise.sublist (List.take_sublist _ _) hp).imp fun h => by
      simpa using h
  · intro s
    have hfil : ∀ x ∈ scored.filter fun se => decide (se.score = s), x.score = s := by
      intro x hx
      have := List.of_mem_filter hx
      simpa using this
    have hpair : (scored.filter fun se => decide (se.score = s)).Pairwise
        fun a b => (decide (b.score ≤ a.score) : Bool) := by
      apply List.pairwise_of_forall_mem_list
      intro a ha b hb
      have h1 := hfil a ha
      have h2 := hfil b hb
      simp [h1, h2]
    have h1 : (scored.filter fun se => decide (se.score = s)) <+ sorted :=
      List.sublist_mergeSort scoreDesc_trans scoreDesc_total hpair
        (List.filter_sublist scored)
    have h2 : (scored.filter fun se => decide (se.score = s)) <+
        (sorted.filter fun se => decide (se.score = s)) := by
      have h := List.Sublist.filter (fun se : ScoredEvent => decide (se.score = s)) h1
      simpa using h
    have h3 : (sorted.filter fun se => decide (se.score = s)) ~
        (scored.filter fun se => decide (se.score = s)) :=
      (List.mergeSort_perm scored _).filter _
    have h4 : (scored.filter fun se => decide (se.score = s)) =
        (sorted.filter fun se => decide (se.score = s)) :=
      h2.eq_of_length h3.length_eq.symm
    rw [htake, h4]
    exact (List.take_sublist _ _).filter _

/-- Witness for C2 at a concrete empty request with `max = 20`. -/
theorem C2_witness :
    (0 : Int) ≤ (20 : Int) ∧
    (recoFeedEvents defaultWeights ⟨0, 0, 0⟩ ⟨0, 0, 10, none, [], 20⟩
      ⟨[], none⟩ [] []).length ≤ 50 :=
  ⟨by norm_num,
    (C2_feed_cap_sorted_stable defaultWeights ⟨0, 0, 0⟩ ⟨0, 0, 10, none, [], 20⟩
      ⟨[], none⟩ [] [] (by norm_num)).1⟩

theorem filterMap_replicate {α β : Type} (f : α → Option β) (n : Nat) (x : α) (y : β)
    (h : f x = some y) :
    List.filterMap f (List.replicate n x) = List.replicate n y := by
  induction n with
  | zero => rfl
  | succ n ih => simp [List.replicate_succ, List.filterMap_cons, h, ih]

theorem mergeSort_replicate {α : Type} (le : α → α → Bool) (n : Nat) (x : α) :
    (List.replicate n x).mergeSort le = List.replicate n x :=
  List.perm_replicate.mp (List.mergeSort_perm (List.replicate n x) le)

/-- With `max = -1`, `.slice(0, Math.min(-1, 50))` keeps all but the last of
the sorted candidates: the response size is `n - 1`, not capped at 50. -/
theorem recoFeed_neg_max_len (w : Weights) (clock : Clock) (req : FeedRequest)
    (user : FeedUser) (interactions : List FeedInteraction) (ev : FeedEvent)
    (n : Nat) (se : ScoredEvent)
    (hse : scoreEvent w req clock (user.vibePrefs ++ req.vibes)
      (feedUserVector user interactions) ev = some se)
    (hneg : req.maxResults = -1) (hn : 50 < n) :
    (recoFeedEvents w clock req user interactions (List.replicate n ev)).length = n - 1 := by
  unfold recoFeedEvents rankAndLimit
  simp only []
  rw [filterMap_replicate _ n _ se hse, mergeSort_replicate, hneg, jsSlice]
  rw [show min (-1 : Int) 50 = -1 by decide]
  rw [if_pos (by decide)]
  simp only [List.length_take, List.length_replicate]
  omega

/-- Counterexample for C2 as stated: a request with `max = -1` over 52
candidates returns 51 events, so the 50-cap does not hold for every
requested max. -/
theorem C2_counterexample :
    ¬((recoFeedEvents defaultWeights ⟨0, 0, 0⟩ ⟨0, 0, 10, none, [], -1⟩ ⟨[], none⟩ []
        (List.replicate 52 ⟨none, none, 0, [], none, none, none, none, 0⟩)).length ≤ 50) := by
  have hse0 : scoreEvent defaultWeights ⟨0, 0, 10, none, [], -1⟩ ⟨0, 0, 0⟩
      ((⟨[], none⟩ : FeedUser).vibePrefs ++ (⟨0, 0, 10, none, [], -1⟩ : FeedRequest).vibes)
      (feedUserVector ⟨[], none⟩ [])
      ⟨none, none, 0, [], none, none, none, none, 0⟩ =
    some (scoreEventBody defaultWeights ⟨0, 0, 10, none, [], -1⟩ ⟨0, 0, 0⟩
      ((⟨[], none⟩ : FeedUser).vibePrefs ++ (⟨0, 0, 10, none, [], -1⟩ : FeedRequest).vibes)
      (feedUserVector ⟨[], none⟩ []) none
      ⟨none, none, 0, [], none, none, none, none, 0⟩) := rfl
  have hlen := recoFeed_neg_max_len defaultWeights ⟨0, 0, 0⟩ ⟨0, 0, 10, none, [], -1⟩
    ⟨[], none⟩ [] ⟨none, none, 0, [], none, none, none, none, 0⟩ 52 _ hse0 rfl
    (by norm_num)
  rw [hlen]
  norm_num

/-! ### Taste vectors (C7) -/

theorem length_tasteStep (nowMs : Int) (opts : TasteOptions) (acc : List ℝ × ℝ)
    (i : TasteInteraction) (h : acc.1.length = 8) :
    (tasteStep nowMs opts acc i).1.length = 8 := by
  unfold tasteStep
  cases i.embedding with
  | none => exact h
  | some emb =>
    simp only []
    by_cases h8 : emb.length = 8
    · rw [if_pos h8]
      by_cases hw : interactionWeight nowMs opts i = 0
      · rw [if_pos hw]; exact h
      · rw [if_neg hw]
        simp [addScaled, h, h8]
    · rw [if_neg h8]; exact h

theorem length_taste_foldl (nowMs : Int) (opts : TasteOptions)
    (interactions : List TasteInteraction) (acc : List ℝ × ℝ) (h : acc.1.length = 8) :
    ((interactions.foldl (tasteStep nowMs opts) acc).1).length = 8 := by
  induction interactions generalizing acc with
  | nil => exact h
  | cons i t ih => exact ih _ (length_tasteStep nowMs opts acc i h)

/-- C7 (amended): the Taste Vector Aggregator returns either the empty vector
(no interactions) or an 8-dim vector that has unit norm unless it is the
all-zero vector; the zero case arises when no interaction carries a valid
embedding or when contributions cancel.  (The feed's fallback user vector is
a plain mean and need not be unit: see the counterexample.) -/
theorem C7_taste_vector_unit_or_zero (nowMs : Int)
    (interactions : List TasteInteraction) (opts : TasteOptions) :
    computeUserTasteVector nowMs interactions opts = [] ∨
    ((computeUserTasteVector nowMs interactions opts).length = 8 ∧
      (sumSq (computeUserTasteVector nowMs interactions opts) = 1 ∨
        computeUserTasteVector nowMs interactions opts = List.replicate 8 0)) := by
  by_cases h0 : interactions.length = 0
  · left
    unfold computeUserTasteVector
    rw [if_pos h0]
  · right
    have hform : computeUserTasteVector nowMs interactions opts =
        normalizeVector
          (if (interactions.foldl (tasteStep nowMs opts) (List.replicate 8 0, 0)).2 > 0
            then (interactions.foldl (tasteStep nowMs opts) (List.replicate 8 0, 0)).1.map
              fun x => x / (interactions.foldl (tasteStep nowMs opts)
                (List.replicate 8 0, 0)).2
            else (interactions.foldl (tasteStep nowMs opts) (List.replicate 8 0, 0)).1) := by
      unfold computeUserTasteVector
      rw [if_neg h0]
    rw [hform]
    have hlen : ((interactions.foldl (tasteStep nowMs opts)
        (List.replicate 8 0, 0)).1).length = 8 :=
      length_taste_foldl nowMs opts interactions _ (by simp)
    have hvlen :
        (if (interactions.foldl (tasteStep nowMs opts) (List.replicate 8 0, 0)).2 > 0
          then (interactions.foldl (tasteStep nowMs opts) (List.replicate 8 0, 0)).1.map
            fun x => x / (interactions.foldl (tasteStep nowMs opts)
              (List.replicate 8 0, 0)).2
          else (interactions.foldl (tasteStep nowMs opts)
            (List.replicate 8 0, 0)).1).length = 8 := by
      split
      · simpa using hlen
      · exact hlen
    constructor
    · rw [length_normalizeVector]
      exact hvlen
    · by_cases hz : sumSq
        (if (interactions.foldl (tasteStep nowMs opts) (List.replicate 8 0, 0)).2 > 0
          then (interactions.foldl (tasteStep nowMs opts) (List.replicate 8 0, 0)).1.map
            fun x => x / (interactions.foldl (tasteStep nowMs opts)
              (List.replicate 8 0, 0)).2
          else (interactions.foldl (tasteStep nowMs opts)
            (List.replicate 8 0, 0)).1) = 0
      · right
        rw [normalizeVector_zero _ hz]
        have hrep := (sumSq_eq_zero_iff _).mp hz
        rwa [hvlen] at hrep
      · left
        exact sumSq_normalizeVector _ hz

/-- Counterexample for C7 as stated: (a) one `view` interaction whose event
has no embedding makes the aggregator return the 8-dim zero vector — neither
empty nor unit-norm; (b) the feed's fallback user vector for two `going`
interactions on orthogonal unit embeddings is the unnormalized mean
`[1/2, 1/2, 0, ...]` with squared norm 1/2. -/
theorem C7_counterexample :
    (computeUserTasteVector 0 [⟨"view", some 0, none, none⟩] defaultTasteOptions ≠ [] ∧
      sumSq (computeUserTasteVector 0 [⟨"view", some 0, none, none⟩]
        defaultTasteOptions) ≠ 1) ∧
    (feedUserVector ⟨[], none⟩
        [⟨"going", some [1, 0, 0, 0, 0, 0, 0, 0]⟩,
          ⟨"going", some [0, 1, 0, 0, 0, 0, 0, 0]⟩] ≠ [] ∧
      sumSq (feedUserVector ⟨[], none⟩
        [⟨"going", some [1, 0, 0, 0, 0, 0, 0, 0]⟩,
          ⟨"going", some [0, 1, 0, 0, 0, 0, 0, 0]⟩]) ≠ 1) := by
  have h1 : computeUserTasteVector 0 [⟨"view", some 0, none, none⟩] defaultTasteOptions =
      List.replicate 8 0 := by
    unfold computeUserTasteVector
    rw [if_neg (by norm_num)]
    simp only [List.foldl_cons, List.foldl_nil, tasteStep]
    rw [if_neg (by norm_num : ¬(0:ℝ) > 0)]
    exact normalizeVector_zero _ (sumSq_replicate_zero 8)
  have h2 : feedUserVector ⟨[], none⟩
      [⟨"going", some [1, 0, 0, 0, 0, 0, 0, 0]⟩,
        ⟨"going", some [0, 1, 0, 0, 0, 0, 0, 0]⟩] =
      [1/2, 1/2, 0, 0, 0, 0, 0, 0] := by
    simp +decide [feedUserVector, feedVectors, jsAccumAdd, List.filter_cons,
      List.filterMap_cons]
  refine ⟨⟨?_, ?_⟩, ⟨?_, ?_⟩⟩
  · rw [h1]; simp
  · rw [h1, sumSq_replicate_zero]; norm_num
  · rw [h2]; simp
  · rw [h2]
    norm_num [sumSq]

/-! ### The fallback user vector is the plain mean (C10) -/

theorem getD_zipWith_add (a b : List ℝ) (i : Nat) (ha : i < a.length)
    (hb : i < b.length) :
    (List.zipWith (· + ·) a b).getD i 0 = a.getD i 0 + b.getD i 0 := by
  induction a generalizing b i with
  | nil => simp at ha
  | cons x t ih =>
    cases b with
    | nil => simp at hb
    | cons y s =>
      cases i with
      | zero => simp
      | succ i =>
        simp only [List.zipWith_cons_cons, List.getD_cons_succ]
        exact ih s i (by simpa using ha) (by simpa using hb)

theorem jsAccumAdd_eq_zipWith (acc v : List ℝ) (h : v.length = acc.length) :
    jsAccumAdd acc v = List.zipWith (· + ·) acc v := by
  unfold jsAccumAdd
  rw [h, List.drop_length, List.append_nil]

theorem length_jsAccumAdd (acc v : List ℝ) (h : v.length = acc.length) :
    (jsAccumAdd acc v).length = acc.length := by
  rw [jsAccumAdd_eq_zipWith acc v h, List.length_zipWith, h, min_self]

theorem jsAccumAdd_getD (acc v : List ℝ) (h : v.length = acc.length) (i : Nat)
    (hi : i < acc.length) :
    (jsAccumAdd acc v).getD i 0 = acc.getD i 0 + v.getD i 0 := by
  rw [jsAccumAdd_eq_zipWith acc v h]
  exact getD_zipWith_add acc v i hi (h ▸ hi)

theorem foldl_jsAccumAdd_length (vs : List (List ℝ)) (acc : List ℝ)
    (hvs : ∀ v ∈ vs, v.length = acc.length) :
    (vs.foldl jsAccumAdd acc).length = acc.length := by
  induction vs generalizing acc with
  | nil => rfl
  | cons v t ih =>
    rw [List.foldl_cons]
    have hlen := length_jsAccumAdd acc v (hvs v (by simp))
    rw [ih _ (fun x hx => by rw [hlen]; exact hvs x (by simp [hx])), hlen]

theorem foldl_jsAccumAdd_getD (vs : List (List ℝ)) (acc : List ℝ)
    (hvs : ∀ v ∈ vs, v.length = acc.length) (i : Nat) (hi : i < acc.length) :
    (vs.foldl jsAccumAdd acc).getD i 0 =
      acc.getD i 0 + (vs.map fun v => v.getD i 0).sum := by
  induction vs generalizing acc with
  | nil => simp
  | cons v t ih =>
    rw [List.foldl_cons, List.map_cons, List.sum_cons]
    have hlen := length_jsAccumAdd acc v (hvs v (by simp))
    rw [ih _ (fun x hx => by rw [hlen]; exact hvs x (by simp [hx])) (by rw [hlen]; exact hi),
      jsAccumAdd_getD acc v (hvs v (by simp)) i hi]
    ring

/-- C10: when the stored taste vector is empty, the user vector used for
scoring is exactly the component-wise arithmetic mean of the embeddings of
the user's `going`/`cosign` interactions that have one (interactions without
an embedding are skipped), with no weighting, decay or normalization. -/
theorem C10_fallback_mean (user : FeedUser) (interactions : List FeedInteraction)
    (htaste : user.tasteVector = none ∨ user.tasteVector = some [])
    (h8 : ∀ v ∈ feedVectors interactions, v.length = 8)
    (hne : feedVectors interactions ≠ []) :
    feedUserVector user interactions = specMeanVector (feedVectors interactions) := by
  have hfil : ¬(interactions.filter fun i =>
      i.action == "going" || i.action == "cosign").length = 0 := by
    intro hc
    apply hne
    unfold feedVectors
    rw [List.length_eq_zero.mp hc]
    rfl
  have hvne : ¬(feedVectors interactions).length = 0 := by
    simpa [List.length_eq_zero] using hne
  have hdim : (feedVectors interactions).headI.length = 8 := by
    obtain ⟨a, t, hv⟩ := List.exists_cons_of_ne_nil hne
    rw [hv, List.headI_cons]
    exact h8 a (by rw [hv]; simp)
  unfold feedUserVector
  rcases htaste with h | h <;> rw [h] <;>
    simp only [] <;>
    rw [if_neg (by simp), if_neg hfil, if_neg hvne, hdim] <;>
    · apply List.ext_getElem
      · rw [List.length_map,
          foldl_jsAccumAdd_length _ _ (fun v hv => by simp [h8 v hv]),
          specMeanVector, List.length_map, List.length_range, List.length_replicate]
      · intro i h1 h2
        have hfold8 : (List.foldl jsAccumAdd (List.replicate 8 0)
            (feedVectors interactions)).length = 8 := by
          rw [foldl_jsAccumAdd_length _ _ (fun v hv => by simp [h8 v hv]),
            List.length_replicate]
        have hi8 : i < 8 := by
          rw [List.length_map, hfold8] at h1
          exact h1
        simp only [specMeanVector, List.getElem_map]
        rw [← List.getD_eq_getElem _ 0 (by rw [hfold8]; exact hi8)]
        rw [foldl_jsAccumAdd_getD _ _ (fun v hv => by simp [h8 v hv]) i
          (by rw [List.length_replicate]; exact hi8)]
        rw [List.getElem_range]
        have hrep : (List.replicate 8 (0:ℝ)).getD i 0 = 0 := by
          rw [List.getD_eq_getElem _ 0 (by simpa using hi8), List.getElem_replicate]
        rw [hrep, zero_add]

/-- Witness for C10: a user with no stored taste vector and one `going` plus
one `cosign` interaction on two 8-dim embeddings. -/
theorem C10_witness :
    ((⟨[], none⟩ : FeedUser).tasteVector = none ∨
      (⟨[], none⟩ : FeedUser).tasteVector = some []) ∧
    (∀ v ∈ feedVectors [⟨"going", some [1, 0, 0, 0, 0, 0, 0, 0]⟩,
        ⟨"cosign", some [0, 1, 0, 0, 0, 0, 0, 0]⟩], v.length = 8) ∧
    feedVectors [⟨"going", some [1, 0, 0, 0, 0, 0, 0, 0]⟩,
        ⟨"cosign", some [0, 1, 0, 0, 0, 0, 0, 0]⟩] ≠ [] ∧
    feedUserVector ⟨[], none⟩ [⟨"going", some [1, 0, 0, 0, 0, 0, 0, 0]⟩,
        ⟨"cosign", some [0, 1, 0, 0, 0, 0, 0, 0]⟩] =
      specMeanVector (feedVectors [⟨"going", some [1, 0, 0, 0, 0, 0, 0, 0]⟩,
        ⟨"cosign", some [0, 1, 0, 0, 0, 0, 0, 0]⟩]) :=
  ⟨Or.inl rfl,
    by simp +decide [feedVectors, List.filter_cons, List.filterMap_cons],
    by simp +decide [feedVectors, List.filter_cons, List.filterMap_cons],
    C10_fallback_mean ⟨[], none⟩ _ (Or.inl rfl)
      (by simp +decide [feedVectors, List.filter_cons, List.filterMap_cons])
      (by simp +decide [feedVectors, List.filter_cons, List.filterMap_cons])⟩

end Boards
